import Mathlib

/-!
Shallow embedding of the Pollua `Thread` core (src/thread/mod.rs) and the
numeric protocol constants it consumes (lua-sys/src/lcore.rs, built against
the embedded Lua 5.3, cf. lua-sys/build.rs which compiles `liblua5.3.a`).

Machine integers (`libc::c_int`, `lua_Integer`) are modelled as `Int`; byte
strings as Lean `String` (the lossy UTF-8 decode of a byte buffer is the
identity on this model); the VM value stack as a `List LuaValue` whose head
is the TOP of the stack.  External VM entry points (`lua_settop`, `lua_pop`,
`lua_rawget`, `luaL_tolstring`, `lua_pcall`, ...) are modelled after their
published protocol, which the spec fixes bit-for-bit as an external contract.
-/

namespace Pollua

/-! ### Numeric constants, from lua-sys/src/lcore.rs (Lua 5.3 configuration) -/

def LUA_MULTRET : Int := -1

def LUAI_MAXSTACK : Int := 1000000

def LUA_REGISTRYINDEX : Int := -LUAI_MAXSTACK - 1000

def LUA_OK : Int := 0

def LUA_YIELD : Int := 1

def LUA_ERRRUN : Int := 2

def LUA_ERRSYNTAX : Int := 3

def LUA_ERRMEM : Int := 4

def LUA_ERRGCMM : Int := 5

def LUA_ERRERR : Int := 6

/-- Modelled from the spec: `LUA_ERRFILE` is declared in the lauxlib half of
the `lua-sys` bindings, which is not among the provided sources.  It is the
file-related load-failure status, one past `LUA_ERRERR` in the wrapped
protocol (status codes 0-6 plus the file code). -/
def LUA_ERRFILE : Int := 7

def LUA_TNONE : Int := -1

def LUA_TNIL : Int := 0

def LUA_TBOOLEAN : Int := 1

def LUA_TLIGHTUSERDATA : Int := 2

def LUA_TNUMBER : Int := 3

def LUA_TSTRING : Int := 4

def LUA_TTABLE : Int := 5

def LUA_TFUNCTION : Int := 6

def LUA_TUSERDATA : Int := 7

def LUA_TTHREAD : Int := 8

def LUA_RIDX_MAINTHREAD : Int := 1

def LUA_RIDX_GLOBALS : Int := 2

/-! ### Lua values and VM state -/

/-- A Lua value, carrying just enough payload for the wrapped operations:
heap-allocated objects (functions, tables, userdata, threads) are identified
by a numeric id. -/
inductive LuaValue where
  | nil
  | boolean (b : Bool)
  | lightuserdata (p : Nat)
  | number (n : Int)
  | str (s : String)
  | function (id : Nat)
  | table (id : Nat)
  | userdata (id : Nat)
  | thread (id : Nat)
deriving Repr, DecidableEq

/-- The `lua_type` tag of a value (constants `LUA_TNIL` .. `LUA_TTHREAD`). -/
def LuaValue.typeTag : LuaValue → Int
  | .nil => LUA_TNIL
  | .boolean _ => LUA_TBOOLEAN
  | .lightuserdata _ => LUA_TLIGHTUSERDATA
  | .number _ => LUA_TNUMBER
  | .str _ => LUA_TSTRING
  | .function _ => LUA_TFUNCTION
  | .table _ => LUA_TTABLE
  | .userdata _ => LUA_TUSERDATA
  | .thread _ => LUA_TTHREAD

/-- The observable state of one `lua_State`.  `stack` holds the value stack,
head = top.  `registry` is the reserved registry table (integer keys; the
wrapper only reads `LUA_RIDX_GLOBALS`).  `tables` maps a table id to its
string-keyed contents (the only kind of key the wrapper uses).  `versionNum`
is the static version number `lua_version` points at, fixed at creation. -/
structure VMState where
  stack : List LuaValue := []
  registry : List (Int × LuaValue) := []
  tables : List (Nat × List (String × LuaValue)) := []
  versionNum : Int := 503
deriving Repr, DecidableEq

/-! ### Stack primitives (external VM entry points / lcore.rs macros) -/

/-- `lua_gettop`: the number of elements on the stack. -/
def luaGettop (s : VMState) : Int := s.stack.length

/-- The value sitting at a (valid) stack index; `LuaValue.nil` stands in for
an invalid index (the wrapper never dereferences one). -/
def luaValueAt (s : VMState) (idx : Int) : LuaValue :=
  if idx < 0 then ((s.stack.get? (-idx - 1).toNat).getD .nil)
  else ((s.stack.get? (s.stack.length - idx.toNat)).getD .nil)

/-- `lua_type`: type tag at an index, `LUA_TNONE` for an index past the top. -/
def luaType (s : VMState) (idx : Int) : Int :=
  if idx < 0 then
    match s.stack.get? (-idx - 1).toNat with
    | some v => v.typeTag
    | none => LUA_TNONE
  else if 1 ≤ idx ∧ idx ≤ s.stack.length then
    ((s.stack.get? (s.stack.length - idx.toNat)).getD .nil).typeTag
  else LUA_TNONE

/-- `lua_isnone` (lcore.rs): `(lua_type(L, index) == LUA_TNONE) as c_int`. -/
def luaIsnone (s : VMState) (idx : Int) : Int :=
  if luaType s idx = LUA_TNONE then 1 else 0

/-- Pushing one value onto the stack (`lua_pushlstring`, `lua_pushcclosure`,
... all share this stack effect). -/
def VMState.push (s : VMState) (v : LuaValue) : VMState :=
  { s with stack := v :: s.stack }

/-- The stack left by `lua_settop`: a nonnegative index sets the absolute
depth (padding with nil when growing); a negative index is relative to the
current top. -/
def settopStack (stack : List LuaValue) (idx : Int) : List LuaValue :=
  let top : Int := stack.length
  let newTop : Int := if 0 ≤ idx then idx else top + idx + 1
  if newTop ≤ 0 then []
  else if newTop ≤ top then stack.drop (top - newTop).toNat
  else List.replicate (newTop - top).toNat .nil ++ stack

/-- `lua_settop`. -/
def luaSettop (s : VMState) (idx : Int) : VMState :=
  { s with stack := settopStack s.stack idx }

/-- `lua_pop` (lcore.rs): `lua_settop(L, -n - 1)`. -/
def luaPop (s : VMState) (n : Int) : VMState :=
  luaSettop s (-n - 1)

/-- `lua_copy(L, -1, toidx)` as used by `lua_replace`: overwrite the slot at
`toidx` with the top value. -/
def luaCopyTopTo (s : VMState) (toidx : Int) : VMState :=
  let v := luaValueAt s (-1)
  let pos : Nat :=
    if toidx < 0 then (-toidx - 1).toNat else ((s.stack.length : Int) - toidx).toNat
  { s with stack := s.stack.set pos v }

/-- `lua_replace` (lcore.rs): `lua_copy(L, -1, index); lua_pop(L, 1)`. -/
def luaReplace (s : VMState) (idx : Int) : VMState :=
  luaPop (luaCopyTopTo s idx) 1

/-- Raw (metamethod-free) read of `t[k]` from the table heap. -/
def tableGet (s : VMState) (id : Nat) (k : String) : LuaValue :=
  match s.tables.lookup id with
  | some t => (t.lookup k).getD .nil
  | none => .nil

/-- `lua_rawget(L, idx)`: the key on top is popped, the raw lookup result in
the table at `idx` is pushed, and its type tag is returned.  The wrapper only
uses string keys on real tables; any other combination reads nil. -/
def luaRawget (s : VMState) (idx : Int) : Int × VMState :=
  let key := s.stack.headD .nil
  let res : LuaValue :=
    match luaValueAt s idx, key with
    | .table id, .str k => tableGet s id k
    | _, _ => .nil
  (res.typeTag, { s with stack := res :: s.stack.tail })

/-- `lua_rawgeti(L, idx, n)` as used on the registry pseudo-index: pushes the
registry entry at integer key `n` (nil when absent) and returns its type. -/
def luaRawgeti (s : VMState) (idx : Int) (n : Int) : Int × VMState :=
  if idx = LUA_REGISTRYINDEX then
    let v := (s.registry.lookup n).getD .nil
    (v.typeTag, s.push v)
  else
    (LUA_TNIL, s.push .nil)

/-- `luaL_tolstring`'s text for a value: the VM's "stringify any value"
operation.  Strings convert to themselves; other values to their printed
form (the exact rendering of non-strings is irrelevant to the wrapper). -/
def stringify : LuaValue → String
  | .nil => "nil"
  | .boolean true => "true"
  | .boolean false => "false"
  | .lightuserdata p => "userdata: " ++ toString p
  | .number n => toString n
  | .str s => s
  | .function id => "function: " ++ toString id
  | .table id => "table: " ++ toString id
  | .userdata id => "userdata: " ++ toString id
  | .thread id => "thread: " ++ toString id

/-! ### Error model (crate-root `Error` / `ErrorKind`, as used by mod.rs) -/

/-- The closed error taxonomy of the wrapper. -/
inductive ErrorKind where
  | Runtime
  | Syntax
  | OutOfMemory
  | MessageHandler
  | GarbageCollection
  | Io
deriving Repr, DecidableEq

/-- `Error { kind, msg }`: a structured error. -/
structure Error where
  kind : ErrorKind
  msg : Option String
deriving Repr, DecidableEq

/-! ### `Thread::get_error` (src/thread/mod.rs, lines 142-176) -/

/-- `Thread::get_error(code)`.  `LUA_OK` yields `Ok(())`; otherwise the kind
follows the source's match on the status code, and the message is taken from
the stack top when a value is there: `luaL_tolstring` converts it (pushing
its result), then the source executes `lua_pop(ptr, -1)` — which by the
`lua_pop`/`lua_settop` definitions is `lua_settop(ptr, 0)`.  `luaL_tolstring`
never returns a null pointer, so the null branch of the source collapses. -/
def getError (s : VMState) (code : Int) : (Except Error Unit) × VMState :=
  if code = LUA_OK then (.ok (), s)
  else
    let kind : ErrorKind :=
      if code = LUA_ERRRUN then .Runtime
      else if code = LUA_ERRSYNTAX then .Syntax
      else if code = LUA_ERRMEM then .OutOfMemory
      else if code = LUA_ERRERR then .MessageHandler
      else if code = LUA_ERRGCMM then .GarbageCollection
      else .Io
    if luaIsnone s (-1) = 0 then
      let text := stringify (s.stack.headD .nil)
      let s1 := s.push (.str text)
      let s2 := luaPop s1 (-1)
      (.error ⟨kind, some text⟩, s2)
    else
      (.error ⟨kind, none⟩, s)

/-! ### Default allocator (src/thread/mod.rs, `alloc_default`, lines 397-415)

The host heap is modelled as a list of live blocks (address, size); address 0
is the null pointer.  The host memory primitives `alloc::dealloc`,
`alloc::alloc` and `alloc::realloc` may fail (out of host memory); failure is
a nondeterministic input, supplied as an oracle flag per call, and is
signalled by the primitives exactly as liballoc signals it: a null return
with the heap untouched. -/

/-- A host heap: the set of live allocations as (nonzero address, size). -/
structure Heap where
  blocks : List (Nat × Nat) := []
deriving Repr, DecidableEq

/-- `alloc::dealloc`: remove the block at `p` from the live set. -/
def Heap.dealloc (h : Heap) (p : Nat) : Heap :=
  ⟨h.blocks.filter (fun b => b.1 ≠ p)⟩

/-- `alloc::alloc`: on success return a fresh nonzero address holding `n`
bytes; on failure return null with the heap unchanged. -/
def Heap.hostAlloc (h : Heap) (ok : Bool) (fresh : Nat) (n : Nat) : Nat × Heap :=
  if ok ∧ fresh ≠ 0 then (fresh, ⟨(fresh, n) :: h.blocks⟩) else (0, h)

/-- `alloc::realloc`: on success the block at `p` now holds `n` bytes (same
address in this model); on failure return null with the heap unchanged. -/
def Heap.hostRealloc (h : Heap) (ok : Bool) (p : Nat) (n : Nat) : Nat × Heap :=
  if ok then
    (p, ⟨h.blocks.map (fun b => if b.1 = p then (p, n) else b)⟩)
  else (0, h)

/-- One call's worth of host-memory nondeterminism: whether the primitive
backing an allocate/resize succeeds, and which fresh address it hands out. -/
structure AllocOracle where
  ok : Bool
  fresh : Nat
deriving Repr, DecidableEq

/-- `alloc_default(ud, ptr, osize, nsize)`: `nsize == 0` ⇒ `dealloc` and
return null; `ptr.is_null()` ⇒ fresh `alloc(nsize)`; otherwise
`realloc(ptr, osize, nsize)`.  The `_ud` parameter is ignored by the source
and omitted here. -/
def alloc_default (o : AllocOracle) (h : Heap) (ptr osize nsize : Nat) : Nat × Heap :=
  if nsize = 0 then
    (0, h.dealloc ptr)
  else if ptr = 0 then
    h.hostAlloc o.ok o.fresh nsize
  else
    let _ := osize
    h.hostRealloc o.ok ptr nsize

/-! ### `at_panic` (src/thread/mod.rs, lines 387-393) -/

/-- What a callback invoked by the VM does on return: either it returns an
integer into the VM normally, or it diverges through the host's fatal-failure
mechanism (a Rust panic) carrying a message. -/
inductive PanicOutcome where
  | ret (n : Int)
  | abort (msg : String)
deriving Repr, DecidableEq

/-- `at_panic(thread)`: classify the in-flight error via
`get_error(LUA_ERRRUN)` and panic with the classified message; the `Ok`
branch of the source returns 0 into the VM. -/
def at_panic (s : VMState) : PanicOutcome :=
  match (getError s LUA_ERRRUN).1 with
  | .ok _ => .ret 0
  | .error e =>
    match e.msg with
    | none => .abort "Lua panic: <no error message>"
    | some m => .abort ("Lua panic: " ++ m)

/-! ### `Thread::new` / `Thread::check_version` / `Drop for Thread`
(src/thread/mod.rs, lines 111-138 and 314-320)

Construction is modelled as the sequence of native entry points it issues,
recorded as an event trace, driven by two oracle bits: whether
`lua_newstate` succeeds, and whether the protected self-call of
`luaL_checkversion` succeeds.  Per the wrapped VM's protocol, `lua_pcall` of
a function that raises returns `LUA_ERRRUN` with the error object pushed;
Rust's `?` on the error path drops the already-built `Thread`, whose `Drop`
impl issues `lua_close`. -/

/-- Native entry points issued during construction/teardown. -/
inductive Event where
  | newStateEv
  | setPanicEv
  | pushCFunEv
  | pcallEv
  | closeEv
deriving Repr, DecidableEq

/-- A `Thread`: the wrapper owns one VM state. -/
structure Thread where
  state : VMState
deriving Repr, DecidableEq

/-- Construction nondeterminism: does `lua_newstate` return a state, and
does `luaL_checkversion` pass inside the protected call?  On check failure
the VM pushes `errObj` as the in-flight error object. -/
structure NewOracle where
  newstateOk : Bool
  checkOk : Bool
  errObj : LuaValue
deriving Repr, DecidableEq

/-- `Thread::check_version` on a fresh state: push the C closure wrapping
`luaL_checkversion`, run it under `lua_pcall(L, 0, 0, 0)`, hand the status to
`get_error`.  The protected call consumes the pushed function; on failure it
pushes the error object instead of results. -/
def check_version (o : NewOracle) (s : VMState) : (Except Error Unit) × VMState × List Event :=
  let s1 := s.push (.function 0)
  let code := if o.checkOk then LUA_OK else LUA_ERRRUN
  let s2 := if o.checkOk then { s1 with stack := s1.stack.tail }
            else { s1 with stack := o.errObj :: s1.stack.tail }
  let r := getError s2 code
  (r.1, r.2, [.pushCFunEv, .pcallEv])

/-- `Thread::new(allocator, userdata)`: `lua_newstate` (null ⇒
`Err(OutOfMemory)` with no state built), then `lua_atpanic`, then
`check_version()?` — whose error drops the thread (`lua_close`) before the
error is returned. -/
def Thread.new (o : NewOracle) : (Except Error Thread) × List Event :=
  if o.newstateOk then
    let s : VMState := {}
    let r := check_version o s
    match r.1 with
    | .ok _ => (.ok ⟨r.2.1⟩, [.newStateEv, .setPanicEv] ++ r.2.2)
    | .error e => (.error e, [.newStateEv, .setPanicEv] ++ r.2.2 ++ [.closeEv])
  else
    (.error ⟨.OutOfMemory, none⟩, [.newStateEv])

/-! ### `Thread::push_global_impl` / `Thread::caller_global`
(src/thread/mod.rs, lines 248-250 and 298-311) -/

/-- `Thread::push_global_impl(name)`: push the global table
(`lua_rawgeti(ptr, LUA_REGISTRYINDEX, LUA_RIDX_GLOBALS)`), push the name
(`lua_pushlstring`), raw-fetch `_G[name]` (`lua_rawget(ptr, -2)`), drop the
global table (`lua_replace(ptr, -2)`); returns the fetched value's type. -/
def push_global_impl (s : VMState) (name : String) : Int × VMState :=
  let s1 := (luaRawgeti s LUA_REGISTRYINDEX LUA_RIDX_GLOBALS).2
  let s2 := s1.push (.str name)
  let r := luaRawget s2 (-2)
  (r.1, luaReplace r.2 (-2))

/-- A `Caller`: a callable has been staged on the stack top. -/
structure Caller where
  value : LuaValue
deriving Repr, DecidableEq

/-- `Caller::from_stack_unchecked`: wrap the stack-top value, assumed
callable by the caller's own argument. -/
def Caller.from_stack_unchecked (s : VMState) : Caller :=
  ⟨s.stack.headD .nil⟩

/-- Modelled from the spec: `Caller::from_global` lives in
`src/thread/call.rs`, which is not among the provided sources.  Per the
spec's call-protocol section, it fetches the global with the raw lookup
(`push_global_impl`, which is in the sources) and produces a `CallContext`
only if the fetched value's type tag is "function"; an unbound or wrong-typed
global yields no `CallContext` and no error (the staged non-function value is
removed from the stack). -/
def Caller.from_global (s : VMState) (name : String) : Option Caller × VMState :=
  let r := push_global_impl s name
  if r.1 = LUA_TFUNCTION then (some (Caller.from_stack_unchecked r.2), r.2)
  else (none, luaPop r.2 1)

/-- `Thread::caller_global(name)`: delegates to `Caller::from_global`. -/
def caller_global (s : VMState) (name : String) : Option Caller × VMState :=
  Caller.from_global s name

/-! ### `Thread::caller_load_impl` / `LoadingMode`
(src/thread/mod.rs, lines 272-296 and 326-330) -/

/-- How the bytes handed to the loader may be interpreted. -/
inductive LoadingMode where
  | Binary
  | Text
  | Auto
deriving Repr, DecidableEq

/-- The mode tag string the source passes to `luaL_loadbufferx` (the C
string without its NUL terminator): `Binary => "b"`, `Text => "t"`,
`Auto => "bt"`. -/
def LoadingMode.tag : LoadingMode → String
  | .Binary => "b"
  | .Text => "t"
  | .Auto => "bt"

/-- The loader call as handed to the VM: the exact byte buffer, chunk name
and mode tag that crossed the boundary. -/
structure LoadCall where
  buffer : List Nat
  chunkName : Option String
  mode : String
deriving Repr, DecidableEq

/-- Loader nondeterminism: the status `luaL_loadbufferx` returns; on
`LUA_OK` the compiled chunk (a function with id `chunkId`) is pushed, on any
other status the error object `errObj` is pushed. -/
structure LoadOracle where
  status : Int
  chunkId : Nat
  errObj : LuaValue
deriving Repr, DecidableEq

/-- `luaL_loadbufferx(L, buf, len, name, mode)` per the wrapped protocol:
push the compiled chunk on success, the error message on failure. -/
def luaL_loadbufferx (o : LoadOracle) (s : VMState) : Int × VMState :=
  if o.status = LUA_OK then (o.status, s.push (.function o.chunkId))
  else (o.status, s.push o.errObj)

/-- `Thread::caller_load_impl(buffer, chunk_name, mode)`: call
`luaL_loadbufferx` with the translated mode tag, hand the status to
`get_error`; `Ok` wraps the staged chunk via `caller_stack_unchecked`, `Err`
propagates the classified error.  The `LoadCall` records exactly what was
passed to the loader. -/
def caller_load_impl (o : LoadOracle) (s : VMState) (buffer : List Nat)
    (chunk_name : Option String) (mode : LoadingMode) :
    (Except Error Caller) × VMState × LoadCall :=
  let call : LoadCall := ⟨buffer, chunk_name, mode.tag⟩
  let lr := luaL_loadbufferx o s
  let r := getError lr.2 lr.1
  (r.1.map (fun _ => Caller.from_stack_unchecked r.2), r.2, call)

/-! ### The protected-call entry point and the Call Protocol invocation

`lua_pcall` itself is an external entry point whose stack behaviour the spec
fixes bit-for-bit as the wrapped VM's published protocol: it pops the called
function and its `n` arguments, then pushes the results on success or the
error object on failure, always returning control to the host.  The
invocation step of the Call Protocol (`src/thread/call.rs`) is not among the
provided sources and is modelled from the spec. -/

/-- Protected-call nondeterminism: whether the callable returns normally,
the results it reports (pushed in order), and the error object raised
otherwise. -/
structure PcallOracle where
  ok : Bool
  results : List LuaValue
  errObj : LuaValue
deriving Repr, DecidableEq

/-- `lua_pcall(L, n, LUA_MULTRET, 0)` per the wrapped protocol: the function
and its `n` arguments are popped; on success all results are pushed (head of
`stack` is the top, so results appear reversed on the head side), on failure
the error object alone is pushed and `LUA_ERRRUN` is returned. -/
def luaPcall (o : PcallOracle) (s : VMState) (n : Nat) : Int × VMState :=
  let rest := s.stack.drop (n + 1)
  if o.ok then (LUA_OK, { s with stack := o.results.reverse ++ rest })
  else (LUA_ERRRUN, { s with stack := o.errObj :: rest })

/-- Modelled from the spec: the Call Protocol's invocation
(`src/thread/call.rs`, not among the provided sources).  With the callable
already staged on top, the arguments are pushed strictly in order above it,
then the protected-call entry point is issued with the declared argument
count.  Returns the status, the resulting state, and the stack depth
measured immediately before the protected call was issued. -/
def invoke (o : PcallOracle) (s : VMState) (args : List LuaValue) : Int × VMState × Int :=
  let sArgs := args.foldl VMState.push s
  let preCallDepth := luaGettop sArgs
  let r := luaPcall o sArgs args.length
  (r.1, r.2, preCallDepth)

/-! ### `Thread::version` (src/thread/mod.rs, lines 190-193)

`lua_version(L)` returns a pointer to the VM's static version number, fixed
when the state is created; `version()` dereferences it.  It is a pure read:
its value is a function of the state and it performs no mutation. -/

/-- `Thread::version()`: `*lua_version(ptr)`. -/
def version (s : VMState) : Int := s.versionNum

/-- The wrapper operations that can be interleaved on one `Thread`, each
with the nondeterministic input it consumes. -/
inductive Op where
  | versionOp
  | getErrorOp (code : Int)
  | pushGlobalOp (name : String)
  | callerGlobalOp (name : String)
  | callerLoadOp (o : LoadOracle) (buffer : List Nat) (chunkName : Option String) (mode : LoadingMode)
  | invokeOp (o : PcallOracle) (args : List LuaValue)
  | pushOp (v : LuaValue)
  | settopOp (idx : Int)
deriving Repr, DecidableEq

/-- Running one operation on the state (`versionOp` reads `version` and
leaves the state as is; the others run the corresponding wrapper call and
keep the resulting state). -/
def applyOp (s : VMState) : Op → VMState
  | .versionOp => s
  | .getErrorOp code => (getError s code).2
  | .pushGlobalOp name => (push_global_impl s name).2
  | .callerGlobalOp name => (caller_global s name).2
  | .callerLoadOp o buffer chunkName mode => (caller_load_impl o s buffer chunkName mode).2.1
  | .invokeOp o args => (invoke o s args).2.1
  | .pushOp v => s.push v
  | .settopOp idx => luaSettop s idx

/-- Running a whole interleaving of operations. -/
def applyOps (s : VMState) (ops : List Op) : VMState :=
  ops.foldl applyOp s

/-! ### Spec-side definitions (for refinement statements) -/

/-- The spec's closed status-to-kind mapping (section 4.2): `LUA_ERRRUN` ⇒
Runtime, `LUA_ERRSYNTAX` ⇒ Syntax, `LUA_ERRMEM` ⇒ OutOfMemory, `LUA_ERRERR`
⇒ MessageHandler, `LUA_ERRGCMM` ⇒ GarbageCollection, and every other code
(file-related ones included) ⇒ the generic Io kind. -/
def classifyKind (code : Int) : ErrorKind :=
  if code = LUA_ERRRUN then .Runtime
  else if code = LUA_ERRSYNTAX then .Syntax
  else if code = LUA_ERRMEM then .OutOfMemory
  else if code = LUA_ERRERR then .MessageHandler
  else if code = LUA_ERRGCMM then .GarbageCollection
  else .Io

/-- The kind carried by a classification outcome (`none` for `Ok`). -/
def errKind : Except Error Unit → Option ErrorKind
  | .ok _ => none
  | .error e => some e.kind

/-- The allocator contract, stated from the spec (sections 4.1 and 4.4), on
an allocator callback `f h ptr osize nsize`:
* zero new size ⇒ free the old allocation via the host primitive and return
  null;
* null old pointer (nonzero new size) ⇒ a fresh allocation: either a nonzero
  address with a new live block of `nsize` bytes, or failure signalled by a
  null return with the heap untouched;
* otherwise ⇒ resize the old allocation: either the old block now holds
  `nsize` bytes, or failure signalled by a null return with the heap
  untouched. -/
def AllocContractHolds (f : Heap → Nat → Nat → Nat → Nat × Heap) : Prop :=
  ∀ h ptr osize nsize,
    (nsize = 0 →
      (f h ptr osize nsize).1 = 0 ∧ (f h ptr osize nsize).2 = h.dealloc ptr) ∧
    (nsize ≠ 0 → ptr = 0 →
      ((f h ptr osize nsize).1 = 0 ∧ (f h ptr osize nsize).2 = h) ∨
      ((f h ptr osize nsize).1 ≠ 0 ∧
        (f h ptr osize nsize).2.blocks = ((f h ptr osize nsize).1, nsize) :: h.blocks)) ∧
    (nsize ≠ 0 → ptr ≠ 0 →
      ((f h ptr osize nsize).1 = 0 ∧ (f h ptr osize nsize).2 = h) ∨
      ((f h ptr osize nsize).1 = ptr ∧
        (f h ptr osize nsize).2.blocks =
          h.blocks.map (fun b => if b.1 = ptr then (ptr, nsize) else b)))

/-- A concrete state used to witness the global-lookup characterization: the
registry binds `LUA_RIDX_GLOBALS` to table 0, whose only entry binds the
name `"f"` to a function. -/
def gTestState : VMState :=
  { registry := [(LUA_RIDX_GLOBALS, .table 0)],
    tables := [(0, [("f", .function 7)])] }

/-! ## Theorems -/

/-- The stack built by pushing a list of arguments in order. -/
theorem foldl_push_stack (args : List LuaValue) (s : VMState) :
    (args.foldl VMState.push s).stack = args.reverse ++ s.stack := by
  induction args generalizing s with
  | nil => rfl
  | cons a rest ih =>
    simp [List.foldl, ih, VMState.push, List.append_assoc]

/-- No value carries the `LUA_TNONE` pseudo-tag. -/
theorem typeTag_ne_TNONE (v : LuaValue) : v.typeTag ≠ LUA_TNONE := by
  cases v <;> simp [LuaValue.typeTag, LUA_TNONE, LUA_TNIL, LUA_TBOOLEAN,
    LUA_TLIGHTUSERDATA, LUA_TNUMBER, LUA_TSTRING, LUA_TFUNCTION, LUA_TTABLE,
    LUA_TUSERDATA, LUA_TTHREAD]

@[simp]
theorem push_versionNum (s : VMState) (v : LuaValue) :
    (s.push v).versionNum = s.versionNum := rfl

@[simp]
theorem luaSettop_versionNum (s : VMState) (idx : Int) :
    (luaSettop s idx).versionNum = s.versionNum := rfl

@[simp]
theorem luaPop_versionNum (s : VMState) (n : Int) :
    (luaPop s n).versionNum = s.versionNum := luaSettop_versionNum _ _

@[simp]
theorem luaCopyTopTo_versionNum (s : VMState) (idx : Int) :
    (luaCopyTopTo s idx).versionNum = s.versionNum := rfl

@[simp]
theorem luaReplace_versionNum (s : VMState) (idx : Int) :
    (luaReplace s idx).versionNum = s.versionNum := by
  simp [luaReplace]

@[simp]
theorem luaRawget_versionNum (s : VMState) (idx : Int) :
    (luaRawget s idx).2.versionNum = s.versionNum := rfl

@[simp]
theorem luaRawgeti_versionNum (s : VMState) (idx n : Int) :
    (luaRawgeti s idx n).2.versionNum = s.versionNum := by
  simp only [luaRawgeti]
  split <;> rfl

@[simp]
theorem getError_versionNum (s : VMState) (code : Int) :
    (getError s code).2.versionNum = s.versionNum := by
  simp only [getError]
  split
  · rfl
  · split <;> simp

@[simp]
theorem push_global_impl_versionNum (s : VMState) (name : String) :
    (push_global_impl s name).2.versionNum = s.versionNum := by
  simp [push_global_impl]

@[simp]
theorem from_global_versionNum (s : VMState) (name : String) :
    (Caller.from_global s name).2.versionNum = s.versionNum := by
  simp only [Caller.from_global]
  split <;> simp

@[simp]
theorem caller_global_versionNum (s : VMState) (name : String) :
    (caller_global s name).2.versionNum = s.versionNum :=
  from_global_versionNum s name

@[simp]
theorem luaL_loadbufferx_versionNum (o : LoadOracle) (s : VMState) :
    (luaL_loadbufferx o s).2.versionNum = s.versionNum := by
  simp only [luaL_loadbufferx]
  split <;> rfl

@[simp]
theorem caller_load_impl_versionNum (o : LoadOracle) (s : VMState)
    (buffer : List Nat) (cn : Option String) (mode : LoadingMode) :
    (caller_load_impl o s buffer cn mode).2.1.versionNum = s.versionNum := by
  simp [caller_load_impl]

@[simp]
theorem luaPcall_versionNum (o : PcallOracle) (s : VMState) (n : Nat) :
    (luaPcall o s n).2.versionNum = s.versionNum := by
  simp only [luaPcall]
  split <;> rfl

@[simp]
theorem foldl_push_versionNum (args : List LuaValue) (s : VMState) :
    (args.foldl VMState.push s).versionNum = s.versionNum := by
  induction args generalizing s with
  | nil => rfl
  | cons a rest ih => simp [List.foldl, ih]

@[simp]
theorem invoke_versionNum (o : PcallOracle) (s : VMState) (args : List LuaValue) :
    (invoke o s args).2.1.versionNum = s.versionNum := by
  simp [invoke]

/-- `versionNum` is untouched by every wrapper operation. -/
theorem applyOp_versionNum (s : VMState) (op : Op) :
    (applyOp s op).versionNum = s.versionNum := by
  cases op <;> simp [applyOp]

/-- The classification outcome of `get_error`, in closed form: `Ok` exactly
on `LUA_OK`, otherwise the spec mapping's kind together with the stringified
stack top as the message (when the stack is nonempty). -/
theorem getError_fst (s : VMState) (code : Int) :
    (getError s code).1 =
      if code = LUA_OK then .ok ()
      else .error ⟨classifyKind code,
        if s.stack.isEmpty then none
        else some (stringify (s.stack.headD .nil))⟩ := by
  simp only [getError, classifyKind]
  split
  · rfl
  · cases hstack : s.stack with
    | nil =>
      simp [luaIsnone, luaType, hstack]
    | cons top rest =>
      simp [luaIsnone, luaType, hstack, typeTag_ne_TNONE]

/-- C1: the error-message extraction of `Thread::get_error` is NOT
stack-neutral.  At the failing input — status `LUA_ERRRUN` with one value
(the error object `"boom"`) on the stack — the message is extracted as
claimed, but the source's `lua_pop(ptr, -1)` is `lua_settop(ptr, 0)` (by the
`lua_pop` macro of lcore.rs), which empties the whole stack: the depth at
entry is 1 and the depth at return is 0.  The code's own comment says it
means to pop the one value `luaL_tolstring` pushed, i.e. `lua_pop(ptr, 1)`:
the code contradicts its stated intent, so this is a code bug. -/
theorem getError_not_stack_neutral :
    (getError { stack := [.str "boom"] } LUA_ERRRUN).1 =
      .error ⟨.Runtime, some "boom"⟩ ∧
    luaGettop { stack := [.str "boom"] } = 1 ∧
    luaGettop (getError { stack := [.str "boom"] } LUA_ERRRUN).2 = 0 :=
  ⟨rfl, rfl, rfl⟩

/-- C2: `Thread::get_error(code)` is `Ok(())` exactly when `code = LUA_OK`;
any other status yields `Err` whose kind follows the closed mapping
`LUA_ERRRUN ↦ Runtime`, `LUA_ERRSYNTAX ↦ Syntax`, `LUA_ERRMEM ↦
OutOfMemory`, `LUA_ERRERR ↦ MessageHandler`, `LUA_ERRGCMM ↦
GarbageCollection`, and every other code — the file-related `LUA_ERRFILE`
included — to the generic `Io` kind. -/
theorem getError_classification (s : VMState) (code : Int) :
    ((getError s code).1 = .ok () ↔ code = LUA_OK) ∧
    errKind (getError s code).1 =
      (if code = LUA_OK then none else some (classifyKind code)) ∧
    classifyKind LUA_ERRRUN = .Runtime ∧
    classifyKind LUA_ERRSYNTAX = .Syntax ∧
    classifyKind LUA_ERRMEM = .OutOfMemory ∧
    classifyKind LUA_ERRERR = .MessageHandler ∧
    classifyKind LUA_ERRGCMM = .GarbageCollection ∧
    classifyKind LUA_ERRFILE = .Io ∧
    (∀ c : Int, c ∉ ([LUA_ERRRUN, LUA_ERRSYNTAX, LUA_ERRMEM, LUA_ERRERR,
        LUA_ERRGCMM] : List Int) → classifyKind c = .Io) := by
  refine ⟨?_, ?_, rfl, rfl, rfl, rfl, rfl, rfl, ?_⟩
  · rw [getError_fst]
    by_cases h : code = LUA_OK <;> simp [h]
  · rw [getError_fst]
    by_cases h : code = LUA_OK <;> simp [h, errKind]
  · intro c hc
    simp only [List.mem_cons, List.not_mem_nil, or_false, not_or] at hc
    obtain ⟨h1, h2, h3, h4, h5⟩ := hc
    simp [classifyKind, h1, h2, h3, h4, h5]

/-- C2 witness: the theorem applied at status `LUA_ERRSYNTAX` on the empty
stack, and the catch-all applied at the unmodeled status 42. -/
theorem getError_classification_witness :
    ((getError {} LUA_ERRSYNTAX).1 = .ok () ↔ LUA_ERRSYNTAX = LUA_OK) ∧
    classifyKind 42 = .Io :=
  ⟨(getError_classification {} LUA_ERRSYNTAX).1,
   (getError_classification {} LUA_ERRSYNTAX).2.2.2.2.2.2.2.2 42 (by decide)⟩

/-- C3: `alloc_default` satisfies the allocator contract for every input
triple and every outcome of the host primitives: zero new size frees the old
allocation via `alloc::dealloc` and returns null; a null old pointer with
nonzero new size performs a fresh `alloc::alloc`; otherwise it performs an
`alloc::realloc` resize — and an allocation failure is signalled only by a
null return with the heap untouched. -/
theorem alloc_default_contract (o : AllocOracle) :
    AllocContractHolds (alloc_default o) := by
  intro h ptr osize nsize
  refine ⟨?_, ?_, ?_⟩
  · intro h0
    simp [alloc_default, h0]
  · intro hn hp
    by_cases hok : o.ok = true ∧ o.fresh ≠ 0
    · right
      simp [alloc_default, hn, hp, Heap.hostAlloc, hok.1, hok.2]
    · left
      simp [alloc_default, hn, hp, Heap.hostAlloc, hok]
  · intro hn hp
    by_cases hok : o.ok = true
    · right
      simp [alloc_default, hn, hp, Heap.hostRealloc, hok]
    · left
      simp [alloc_default, hn, hp, Heap.hostRealloc, hok]

/-- C3 witness: the contract's free clause at a concrete call. -/
theorem alloc_default_contract_witness :
    (alloc_default ⟨true, 5⟩ {} 7 16 0).1 = 0 ∧
    (alloc_default ⟨true, 5⟩ {} 7 16 0).2 = Heap.dealloc {} 7 :=
  (alloc_default_contract ⟨true, 5⟩ {} 7 16 0).1 rfl

/-- C9: the installed fatal-error hook never returns normally into the VM:
on every state, `at_panic` diverges through a host panic carrying the
classified message, and its branch returning 0 is unreachable because
classifying the fixed non-OK status `LUA_ERRRUN` can never yield `Ok`. -/
theorem at_panic_never_returns (s : VMState) :
    (∃ m, at_panic s = .abort m) ∧ ∀ n, at_panic s ≠ .ret n := by
  have h2 : (LUA_ERRRUN = LUA_OK) = False := by simp [LUA_ERRRUN, LUA_OK]
  by_cases hs : s.stack.isEmpty <;>
    simp [at_panic, getError_fst, hs, h2]

/-- The construction path where `lua_newstate` returns null. -/
theorem thread_new_oom (ck : Bool) (e : LuaValue) :
    Thread.new ⟨false, ck, e⟩ = (.error ⟨.OutOfMemory, none⟩, [.newStateEv]) := by
  simp [Thread.new]

/-- The construction path where the version check passes. -/
theorem thread_new_ok (e : LuaValue) :
    Thread.new ⟨true, true, e⟩ =
      (.ok ⟨{}⟩, [.newStateEv, .setPanicEv, .pushCFunEv, .pcallEv]) := by
  simp [Thread.new, check_version, getError, VMState.push]

/-- The construction path where the version check fails: `lua_pcall` reports
`LUA_ERRRUN` with the error object `e` in flight. -/
theorem thread_new_fail (e : LuaValue) :
    Thread.new ⟨true, false, e⟩ =
      (.error ⟨.Runtime, some (stringify e)⟩,
       [.newStateEv, .setPanicEv, .pushCFunEv, .pcallEv, .closeEv]) := by
  have h : (LUA_ERRRUN = LUA_OK) = False := by simp [LUA_ERRRUN, LUA_OK]
  simp [Thread.new, check_version, getError_fst, VMState.push, h, classifyKind]

/-- C4: `Thread::new` installs the fatal-error hook (`lua_atpanic`) before
any protected call runs, and when `lua_newstate` succeeded but the protected
self-call of `luaL_checkversion` fails, it returns a Runtime error — the
`Except` being `.error` means no `Thread` value is produced, so no
partially-constructed `Thread` is observable. -/
theorem thread_new_hook_then_check (o : NewOracle) :
    (Event.pcallEv ∈ (Thread.new o).2 →
      (Thread.new o).2.indexOf .setPanicEv < (Thread.new o).2.indexOf .pcallEv) ∧
    (o.newstateOk = true → o.checkOk = false →
      ∃ m, (Thread.new o).1 = .error ⟨.Runtime, m⟩) := by
  obtain ⟨ns, ck, e⟩ := o
  cases ns
  · rw [thread_new_oom]
    refine ⟨fun h => ?_, fun h => by cases h⟩
    simp at h
  · cases ck
    · rw [thread_new_fail]
      refine ⟨fun _ => ?_, fun _ _ => ⟨some (stringify e), rfl⟩⟩
      show List.indexOf Event.setPanicEv
          [Event.newStateEv, Event.setPanicEv, Event.pushCFunEv, Event.pcallEv,
           Event.closeEv] <
        List.indexOf Event.pcallEv
          [Event.newStateEv, Event.setPanicEv, Event.pushCFunEv, Event.pcallEv,
           Event.closeEv]
      decide
    · rw [thread_new_ok]
      refine ⟨fun _ => ?_, fun _ h => by cases h⟩
      show List.indexOf Event.setPanicEv
          [Event.newStateEv, Event.setPanicEv, Event.pushCFunEv, Event.pcallEv] <
        List.indexOf Event.pcallEv
          [Event.newStateEv, Event.setPanicEv, Event.pushCFunEv, Event.pcallEv]
      decide

/-- C4 witness: a failing version check after a successful `lua_newstate`. -/
theorem thread_new_hook_then_check_witness :
    ((Thread.new ⟨true, false, .str "mismatch"⟩).2.indexOf .setPanicEv <
      (Thread.new ⟨true, false, .str "mismatch"⟩).2.indexOf .pcallEv) ∧
    ∃ m, (Thread.new ⟨true, false, .str "mismatch"⟩).1 = .error ⟨.Runtime, m⟩ :=
  ⟨(thread_new_hook_then_check ⟨true, false, .str "mismatch"⟩).1 (by decide),
   (thread_new_hook_then_check ⟨true, false, .str "mismatch"⟩).2 rfl rfl⟩

/-- C10: when `lua_newstate` succeeds but the version check fails, the trace
of `Thread::new` performs `lua_close` exactly once (the `Thread` destructor
running on the error path), after the `lua_newstate` that created the state
and before the error is returned; and every construction outcome issues
`lua_close` at most once. -/
theorem thread_new_teardown_once (o : NewOracle) :
    (o.newstateOk = true → o.checkOk = false →
      (Thread.new o).2.count .closeEv = 1 ∧
      (Thread.new o).2.indexOf .newStateEv < (Thread.new o).2.indexOf .closeEv ∧
      ∃ e, (Thread.new o).1 = .error e) ∧
    (Thread.new o).2.count .closeEv ≤ 1 := by
  obtain ⟨ns, ck, e⟩ := o
  cases ns
  · rw [thread_new_oom]
    exact ⟨(fun h => nomatch h), by decide⟩
  · cases ck
    · rw [thread_new_fail]
      refine ⟨fun _ _ => ⟨?_, ?_, ⟨.Runtime, some (stringify e)⟩, rfl⟩, ?_⟩
      · show List.count Event.closeEv
            [Event.newStateEv, Event.setPanicEv, Event.pushCFunEv, Event.pcallEv,
             Event.closeEv] = 1
        decide
      · show List.indexOf Event.newStateEv
            [Event.newStateEv, Event.setPanicEv, Event.pushCFunEv, Event.pcallEv,
             Event.closeEv] <
          List.indexOf Event.closeEv
            [Event.newStateEv, Event.setPanicEv, Event.pushCFunEv, Event.pcallEv,
             Event.closeEv]
        decide
      · show List.count Event.closeEv
            [Event.newStateEv, Event.setPanicEv, Event.pushCFunEv, Event.pcallEv,
             Event.closeEv] ≤ 1
        decide
    · rw [thread_new_ok]
      refine ⟨(fun _ h => nomatch h), ?_⟩
      show List.count Event.closeEv
          [Event.newStateEv, Event.setPanicEv, Event.pushCFunEv, Event.pcallEv] ≤ 1
      decide

/-- C10 witness: the failing-check path tears down exactly once. -/
theorem thread_new_teardown_once_witness :
    (Thread.new ⟨true, false, .str "mismatch"⟩).2.count .closeEv = 1 ∧
    (Thread.new ⟨true, false, .str "mismatch"⟩).2.indexOf .newStateEv <
      (Thread.new ⟨true, false, .str "mismatch"⟩).2.indexOf .closeEv ∧
    ∃ e, (Thread.new ⟨true, false, .str "mismatch"⟩).1 = .error e :=
  (thread_new_teardown_once ⟨true, false, .str "mismatch"⟩).1 rfl rfl

/-- C5: on a state whose registry binds `LUA_RIDX_GLOBALS` to the global
table `g` with contents `G`, `Thread::caller_global(name)` fetches `_G[name]`
by the raw association lookup (no metamethods) and yields `Some` exactly when
that value's type tag is `LUA_TFUNCTION`; an unbound (nil) or wrong-typed
global yields `None` — an ordinary `Option`, no error channel exists. -/
theorem caller_global_characterization (s : VMState) (name : String) (g : Nat)
    (G : List (String × LuaValue))
    (hreg : s.registry.lookup LUA_RIDX_GLOBALS = some (.table g))
    (htab : s.tables.lookup g = some G) :
    (caller_global s name).1 =
      (if ((G.lookup name).getD .nil).typeTag = LUA_TFUNCTION
       then some ⟨(G.lookup name).getD .nil⟩ else none) ∧
    ((caller_global s name).1.isSome ↔
      ((G.lookup name).getD .nil).typeTag = LUA_TFUNCTION) := by
  have himpl : push_global_impl s name =
      (((G.lookup name).getD .nil).typeTag,
       { s with stack := ((G.lookup name).getD .nil) :: s.stack }) := by
    simp [push_global_impl, luaRawgeti, luaRawget, luaValueAt, tableGet,
      VMState.push, luaReplace, luaCopyTopTo, luaPop, luaSettop, settopStack,
      hreg, htab]
    have h1 : ¬ ((s.stack.length : Int) + 1 + 1 + -2 + 1 ≤ 0) := by omega
    have h2 : ((s.stack.length : Int) + 1 -
        ((s.stack.length : Int) + 1 + 1 + -2)).toNat = 1 := by omega
    rw [if_neg h1, h2]
    rfl
  have hres : (caller_global s name).1 =
      (if ((G.lookup name).getD .nil).typeTag = LUA_TFUNCTION
       then some ⟨(G.lookup name).getD .nil⟩ else none) := by
    simp only [caller_global, Caller.from_global, himpl,
      Caller.from_stack_unchecked]
    split <;> rfl
  refine ⟨hres, ?_⟩
  rw [hres]
  split <;> simp_all

/-- C5 witness: the characterization applied on `gTestState`, where `"f"` is
bound to a function. -/
theorem caller_global_characterization_witness :
    (caller_global gTestState "f").1.isSome ↔
      ((([("f", LuaValue.function 7)] : List (String × LuaValue)).lookup "f").getD
        .nil).typeTag = LUA_TFUNCTION :=
  (caller_global_characterization gTestState "f" 0 [("f", .function 7)] rfl rfl).2

/-- C6: `Thread::caller_load_impl` hands the loader exactly the given byte
buffer and chunk name with the mode tag `Binary ↦ "b"`, `Text ↦ "t"`,
`Auto ↦ "bt"`; on load success it returns a `Caller` for the compiled chunk,
and on load failure the status is classified by `get_error` and no `Caller`
is produced. -/
theorem caller_load_modes (o : LoadOracle) (s : VMState) (buffer : List Nat)
    (cn : Option String) (mode : LoadingMode) :
    (caller_load_impl o s buffer cn mode).2.2 = ⟨buffer, cn, mode.tag⟩ ∧
    LoadingMode.tag .Binary = "b" ∧
    LoadingMode.tag .Text = "t" ∧
    LoadingMode.tag .Auto = "bt" ∧
    (o.status = LUA_OK →
      (caller_load_impl o s buffer cn mode).1 = .ok ⟨.function o.chunkId⟩) ∧
    (o.status ≠ LUA_OK →
      (caller_load_impl o s buffer cn mode).1 =
        .error ⟨classifyKind o.status, some (stringify o.errObj)⟩) := by
  refine ⟨rfl, rfl, rfl, rfl, ?_, ?_⟩
  · intro h
    simp [caller_load_impl, luaL_loadbufferx, h, getError, Except.map,
      Caller.from_stack_unchecked, VMState.push]
  · intro h
    simp [caller_load_impl, luaL_loadbufferx, h, getError_fst, Except.map,
      VMState.push]

/-- C6 witness: one successful load under `Auto` and one syntax failure
under `Text`. -/
theorem caller_load_modes_witness :
    (caller_load_impl ⟨LUA_OK, 3, .nil⟩ {} [120] none .Auto).1 =
      .ok ⟨.function 3⟩ ∧
    (caller_load_impl ⟨LUA_ERRSYNTAX, 3, .str "bad"⟩ {} [120] none .Text).1 =
      .error ⟨classifyKind LUA_ERRSYNTAX, some (stringify (.str "bad"))⟩ :=
  ⟨(caller_load_modes ⟨LUA_OK, 3, .nil⟩ {} [120] none .Auto).2.2.2.2.1 rfl,
   (caller_load_modes ⟨LUA_ERRSYNTAX, 3, .str "bad"⟩ {} [120] none .Text).2.2.2.2.2
     (by decide)⟩

/-- C7 counterexample: a successful protected call with the callable and
N = 2 pushed arguments on the stack and 0 reported results.  The post-call
depth is 0, but "pre-call depth − N + result count" is 1 when the pre-call
depth is measured immediately before the protected-call entry point (3, as
`invoke` records), and is likewise wrong (−2, resp. −1) if one instead reads
"pre-call depth" as the depth before the callable was staged (0) or just
after it was staged (1): the claimed equation fails on every reading. -/
theorem invoke_depth_claim_false :
    (invoke ⟨true, [], .nil⟩ { stack := [.function 5] } [.number 1, .number 2]).1 =
      LUA_OK ∧
    (invoke ⟨true, [], .nil⟩ { stack := [.function 5] } [.number 1, .number 2]).2.2 =
      3 ∧
    luaGettop
        (invoke ⟨true, [], .nil⟩ { stack := [.function 5] }
          [.number 1, .number 2]).2.1 = 0 ∧
    luaGettop
        (invoke ⟨true, [], .nil⟩ { stack := [.function 5] }
          [.number 1, .number 2]).2.1 ≠ 3 - 2 + 0 ∧
    luaGettop
        (invoke ⟨true, [], .nil⟩ { stack := [.function 5] }
          [.number 1, .number 2]).2.1 ≠ 0 - 2 + 0 ∧
    luaGettop
        (invoke ⟨true, [], .nil⟩ { stack := [.function 5] }
          [.number 1, .number 2]).2.1 ≠ 1 - 2 + 0 := by
  refine ⟨rfl, rfl, rfl, ?_, ?_, ?_⟩ <;> decide

/-- C7 (amended): for every successful protected call with N pushed
arguments, the post-call depth equals the pre-call depth (measured
immediately before the protected-call entry point) minus (N + 1) plus the
reported result count — the protected call pops the callable along with the
N arguments — and the results sit where the callable stood, directly above
the untouched remainder of the stack, so they are recoverable as a
positional view. -/
theorem invoke_depth_amended (o : PcallOracle) (s : VMState)
    (args : List LuaValue) (hok : o.ok = true) (hstaged : 1 ≤ s.stack.length) :
    luaGettop (invoke o s args).2.1 =
      (invoke o s args).2.2 - (args.length + 1) + o.results.length ∧
    (invoke o s args).2.1.stack = o.results.reverse ++ s.stack.tail := by
  have hstack : (args.foldl VMState.push s).stack = args.reverse ++ s.stack :=
    foldl_push_stack args s
  have hdrop : (args.reverse ++ s.stack).drop (args.length + 1) = s.stack.tail := by
    rw [show args.length + 1 = args.reverse.length + 1 by simp,
      List.drop_append]
    cases s.stack <;> rfl
  constructor
  · simp only [invoke, luaPcall, hok, if_pos, luaGettop, hstack, hdrop]
    push_cast [List.length_append, List.length_reverse, List.length_tail]
    omega
  · simp only [invoke, luaPcall, hok, if_pos, hstack, hdrop]

/-- C7 amended witness: callable plus one argument, one result. -/
theorem invoke_depth_amended_witness :
    luaGettop
        (invoke ⟨true, [.number 9], .nil⟩ { stack := [.function 5] }
          [.number 1]).2.1 =
      (invoke ⟨true, [.number 9], .nil⟩ { stack := [.function 5] }
          [.number 1]).2.2 -
        (([LuaValue.number 1] : List LuaValue).length + 1) +
        ([LuaValue.number 9] : List LuaValue).length ∧
    (invoke ⟨true, [.number 9], .nil⟩ { stack := [.function 5] }
        [.number 1]).2.1.stack =
      [LuaValue.number 9].reverse ++ ([LuaValue.function 5] : List LuaValue).tail :=
  invoke_depth_amended ⟨true, [.number 9], .nil⟩ { stack := [.function 5] }
    [.number 1] rfl (by decide)

/-- C8: `Thread::version` is a pure read of the version number fixed at
state creation: running it changes nothing (`applyOp s .versionOp = s`), and
its value is unchanged by any interleaving of the wrapper's operations, so
repeated calls across the `Thread`'s lifetime always return the same
number. -/
theorem version_constant (s : VMState) (ops : List Op) :
    version (applyOps s ops) = version s ∧ applyOp s .versionOp = s := by
  refine ⟨?_, rfl⟩
  induction ops generalizing s with
  | nil => rfl
  | cons op rest ih =>
    show version (applyOps (applyOp s op) rest) = version s
    rw [ih (applyOp s op)]
    exact applyOp_versionNum s op

end Pollua
